import Mathlib

/-!
A shallow embedding of the ISZ container decoder from `isz-tool.py`.

Files are modelled as lists of byte values (`Bytes`), the filesystem as a
partial map from filenames to file contents (`FS`); `os.path.exists` is
`Option.isSome` of that map, and a read at an offset is `drop`/`take` on the
content (Python's `read` returns fewer bytes near the end of the file).
Fallible code returns `Except PyErr`; each `PyErr` constructor stands for one
of the distinct `Exception(...)` messages raised by the source (or for a
builtin Python exception such as `IndexError`).  Arithmetic that Python does
on plain unbounded `int`s is done on `Int`; unsigned 32-bit header fields are
`Nat`s below `2 ^ 32`; ctypes `c_int32`/`c_int64`/`c_byte` fields are signed
and decoded in two's complement.
-/

namespace Isz

/-- The content of a file: one natural number per byte (0..255 for real files). -/
abbrev Bytes := List Nat

/-- The filesystem: filename to file content, `none` when the file is absent. -/
abbrev FS := String → Option Bytes

/-- Python's `x & 0xffffffff` for a nonnegative `x`. -/
def mask32 (n : Nat) : Nat := n % 2 ^ 32

/-- Python's `~x & 0xffffffff` for a nonnegative `x`. -/
def not32 (n : Nat) : Nat := mask32 n ^^^ 0xffffffff

/-- Value stored by a ctypes `c_int32` field when assigned `n` (silent wrap). -/
def toInt32 (n : Int) : Int :=
  let m := n % 2 ^ 32
  if m < 2 ^ 31 then m else m - 2 ^ 32

/-- Little-endian value of a list of bytes (first byte least significant). -/
def decodeLE (bs : Bytes) : Nat := bs.foldr (fun b acc => acc * 256 + b) 0

/-- Unsigned little-endian field of `len` bytes at offset `off`. -/
def decodeU (bs : Bytes) (off len : Nat) : Nat := decodeLE ((bs.drop off).take len)

/-- Signed (two's complement) little-endian field of `len` bytes at `off`. -/
def decodeI (bs : Bytes) (off len : Nat) : Int :=
  let u := decodeU bs off len
  if u < 2 ^ (8 * len - 1) then (u : Int) else (u : Int) - 2 ^ (8 * len)

/-- One `Exception` per distinct failure of the source (plus Python builtins). -/
inductive PyErr where
  /-- `'Error while reading the ISZ header only got (%d bytes)'` -/
  | headerShortRead (got : Nat)
  /-- `'Not an ISZ file (invalid signature)'` -/
  | notAnIszFile
  /-- `'ISZ version not supported'` -/
  | versionNotSupported
  /-- `'Not the first segment in a set'` -/
  | notFirstSegment
  /-- `'Only pointer sizes of 3 implemented'` -/
  | onlyPointerSize3
  /-- Python `IndexError` (sequence index out of range). -/
  | indexError
  /-- Python `ValueError` (negative seek/read size, buffer too small). -/
  | valueError
  /-- Python `FileNotFoundError` from `open`. -/
  | fileNotFound (name : String)
  /-- `'Unable to find the naming convention used for the multi-part ISZ file'` -/
  | namingConventionNotFound
  /-- `'For multi-parts ISZ files, the first file need to have an .isz extension'` -/
  | firstFileNeedsIszExtension
  /-- `'Unable to find segment number %d'` -/
  | missingSegment (i : Nat)
  /-- `'Unable to read block %d'` -/
  | unableToReadBlock (bid : Nat)
  /-- `'Unable to find the segment of block %d'` -/
  | unableToFindSegmentOfBlock (bid : Nat)
  /-- `'Wrong data size'` -/
  | wrongDataSize
  /-- `'CRC Error during extraction'` -/
  | crcErrorDuringExtraction
  /-- Failure of `zlib.decompress` / `bz2.decompress` on a malformed stream. -/
  | decompressionError
  /-- Python `TypeError`: `decompress_block` falls off the `if`/`elif` chain
  and returns `None` for a method tag outside 0..3, which every caller then
  rejects when using the result as bytes. -/
  | typeErrorNone
deriving DecidableEq

/-- Results of fallible operations. -/
abbrev PyResult (α : Type) := Except PyErr α

/-- The fixed 64-byte ISZ header (`class ISZ_header`), field for field.
Unsigned ctypes fields are `Nat`, signed ones (`c_int64 segment_size`,
`c_byte file_seg_number`) are `Int`. -/
structure ISZ_header where
  signature : Bytes
  header_size : Nat
  version_number : Nat
  volume_serial_number : Nat
  sector_size : Nat
  total_sectors : Nat
  encryption_type : Nat
  segment_size : Int
  nblock : Nat
  block_size : Nat
  pointer_length : Nat
  file_seg_number : Int
  chunk_pointers_offset : Nat
  segment_pointers_offset : Nat
  data_offset : Nat
  reserved : Nat
  checksum1 : Nat
  size1 : Nat
  unknown2 : Nat
  checksum2 : Nat
deriving DecidableEq

/-- `ISZ_header.get_uncompressed_size`. -/
def get_uncompressed_size (h : ISZ_header) : Nat := h.sector_size * h.total_sectors

/-- The packed little-endian layout of `ISZ_header` (`_pack_ = 1`). -/
def decode_header (bs : Bytes) : ISZ_header :=
  { signature := bs.take 4
    header_size := decodeU bs 4 1
    version_number := decodeU bs 5 1
    volume_serial_number := decodeU bs 6 4
    sector_size := decodeU bs 10 2
    total_sectors := decodeU bs 12 4
    encryption_type := decodeU bs 16 1
    segment_size := decodeI bs 17 8
    nblock := decodeU bs 25 4
    block_size := decodeU bs 29 4
    pointer_length := decodeU bs 33 1
    file_seg_number := decodeI bs 34 1
    chunk_pointers_offset := decodeU bs 35 4
    segment_pointers_offset := decodeU bs 39 4
    data_offset := decodeU bs 43 4
    reserved := decodeU bs 47 1
    checksum1 := decodeU bs 48 4
    size1 := decodeU bs 52 4
    unknown2 := decodeU bs 56 4
    checksum2 := decodeU bs 60 4 }

/-- `b'IsZ!'`. -/
def iszMagic : Bytes := [0x49, 0x73, 0x5a, 0x21]

/-- `ISZ_header.read_header`: `f.readinto(self)` overwrites the header object
in place with the first 64 bytes of the file, then the signature and version
are checked.  The first component is the value held by the (mutated) header
object afterwards, the second the outcome of the checks. -/
def read_header (old : ISZ_header) (content : Bytes) : ISZ_header × PyResult Unit :=
  if content.length < 64 then (old, .error (.headerShortRead content.length))
  else
    let h := decode_header (content.take 64)
    ( h,
      if h.signature ≠ iszMagic then .error .notAnIszFile
      else if h.version_number ≠ 1 then .error .versionNotSupported
      else .ok () )

/-- One Segment Definition Table entry (`class ISZ_sdt`): `c_int64 size` and
four `c_int32` fields, all signed. -/
structure ISZ_sdt where
  size : Int
  number_of_chunks : Int
  first_chunck_number : Int
  chunk_offset : Int
  left_size : Int
deriving DecidableEq

/-- `class StorageMethods: (Zeros, Data, Zlib, Bzip2) = range(4)`. -/
def StorageMethods.Zeros : Nat := 0

/-- Raw, uncompressed data. -/
def StorageMethods.Data : Nat := 1

/-- zlib-compressed data. -/
def StorageMethods.Zlib : Nat := 2

/-- bzip2-compressed data (with a mangled stream header on disk). -/
def StorageMethods.Bzip2 : Nat := 3

/-- The fixed XOR key `(0xb6, 0x8c, 0xa5, 0xde)`. -/
def xor_code : List Nat := [0xb6, 0x8c, 0xa5, 0xde]

/-- `ISZ_File.xor_obfuscate`: XOR byte `i` with `code[i % 4]`. -/
def xor_obfuscate (data : Bytes) : Bytes :=
  (List.range data.length).map (fun i => data.getD i 0 ^^^ xor_code.getD (i % 4) 0)

/-- The 24-byte layout of `ISZ_sdt` (`from_buffer_copy` on de-obfuscated bytes). -/
def decode_sdt (bs : Bytes) : ISZ_sdt :=
  { size := decodeI bs 0 8
    number_of_chunks := decodeI bs 8 4
    first_chunck_number := decodeI bs 12 4
    chunk_offset := decodeI bs 16 4
    left_size := decodeI bs 20 4 }

/-- The `read_segment` loop of `read_segments`: starting at the current file
position, repeatedly read 24 bytes (`from_buffer_copy` raises `ValueError`
when fewer remain), de-obfuscate and decode them, stopping without appending
at the record whose `size` is 0. -/
def parse_sdt_list (bs : Bytes) : PyResult (List ISZ_sdt) :=
  if _h : bs.length < 24 then .error .valueError
  else
    let seg := decode_sdt (xor_obfuscate (bs.take 24))
    if seg.size = 0 then .ok []
    else (parse_sdt_list (bs.drop 24)).map (fun rest => seg :: rest)
termination_by bs.length
decreasing_by simp [List.length_drop]; omega

/-- `ISZ_File.name_generator_1`: `filename[:-4] + '.i%02d' % seg_id` for a
nonzero segment id, the base filename itself for segment 0. -/
def pad2 (n : Nat) : String := if n < 10 then "0" ++ toString n else toString n

/-- Python `'%03d' % n` for a nonnegative `n`. -/
def pad3 (n : Nat) : String :=
  if n < 10 then "00" ++ toString n
  else if n < 100 then "0" ++ toString n
  else toString n

/-- First naming rule: strip the last 4 characters, append `.iNN`. -/
def name_generator_1 (filename : String) (seg_id : Nat) : String :=
  if seg_id ≠ 0 then (filename.take (filename.length - 4)) ++ ".i" ++ pad2 seg_id
  else filename

/-- Second naming rule: strip the last 11 characters, append `.partNN.isz`. -/
def name_generator_2 (filename : String) (seg_id : Nat) : String :=
  (filename.take (filename.length - 11)) ++ ".part" ++ pad2 (seg_id + 1) ++ ".isz"

/-- Third naming rule: strip the last 12 characters, append `.partNNN.isz`. -/
def name_generator_3 (filename : String) (seg_id : Nat) : String :=
  (filename.take (filename.length - 12)) ++ ".part" ++ pad3 (seg_id + 1) ++ ".isz"

/-- `ISZ_File.name_generator_no_change`. -/
def name_generator_no_change (filename : String) (_seg_id : Nat) : String := filename

/-- The naming strategy stored on the handle (`self.name_generator`). -/
inductive NameGen where
  | gen1
  | gen2
  | gen3
  | noChange
deriving DecidableEq

/-- Apply a naming strategy to a segment id. -/
def NameGen.apply : NameGen → String → Nat → String
  | .gen1, f, i => name_generator_1 f i
  | .gen2, f, i => name_generator_2 f i
  | .gen3, f, i => name_generator_3 f i
  | .noChange, f, i => name_generator_no_change f i

/-- Python's character-based `str.endswith`. -/
def str_endswith (s suffix : String) : Bool := suffix.data.isSuffixOf s.data

/-- `ISZ_File.detect_file_naming_convention`: require the `.isz` extension,
then pick the first of the three rules whose candidate name for segment 1
exists on the filesystem. -/
def detect_file_naming_convention (filename : String) (fs : FS) : PyResult NameGen :=
  if str_endswith filename ".isz" then
    if (fs (name_generator_1 filename 1)).isSome then .ok .gen1
    else if (fs (name_generator_2 filename 1)).isSome then .ok .gen2
    else if (fs (name_generator_3 filename 1)).isSome then .ok .gen3
    else .error .namingConventionNotFound
  else .error .firstFileNeedsIszExtension

/-- `ISZ_File.check_segment_names`: every segment index 0..n-1 must map to an
existing file; fail at the first missing one. -/
def check_segment_names (filename : String) (ng : NameGen) (fs : FS) (n : Nat) :
    PyResult Unit :=
  (List.range n).foldlM
    (fun _ i =>
      if (fs (ng.apply filename i)).isSome then Except.ok ()
      else .error (.missingSegment i))
    ()

/-- The synthetic single descriptor of `read_segments` when
`segment_pointers_offset == 0` (assignments to ctypes `c_int32` fields wrap). -/
def synthetic_segment (hdr : ISZ_header) : ISZ_sdt :=
  { size := 0
    number_of_chunks := toInt32 hdr.nblock
    first_chunck_number := 0
    chunk_offset := toInt32 hdr.data_offset
    left_size := 0 }

/-- `ISZ_File.read_segments`: parse (or synthesize) the segment table from the
base file's content, pick the naming strategy (detection runs only with more
than one descriptor), then check all segment files exist. -/
def read_segments (hdr : ISZ_header) (filename : String) (content : Bytes)
    (fs : FS) : PyResult (List ISZ_sdt × NameGen) :=
  (if hdr.segment_pointers_offset = 0 then pure [synthetic_segment hdr]
   else parse_sdt_list (content.drop hdr.segment_pointers_offset)) >>= fun segs =>
  (if segs.length > 1 then detect_file_naming_convention filename fs
   else pure NameGen.noChange) >>= fun ng =>
  check_segment_names filename ng fs segs.length >>= fun _ =>
  pure (segs, ng)

/-- Decode one packed chunk pointer from its 3-byte slice
(`val = data[2]*256*256 + data[1]*256 + data[0]`; a slice shorter than 3
bytes makes the indexing raise). -/
def decode_chunk_pointer (d : Bytes) : PyResult (Nat × Nat) :=
  match d.get? 2, d.get? 1, d.get? 0 with
  | some b2, some b1, some b0 =>
      let val := b2 * 256 * 256 + b1 * 256 + b0
      .ok (val >>> 22, val &&& 0x3fffff)
  | _, _, _ => .error .indexError

/-- The de-obfuscated packed chunk-pointer table bytes. -/
def chunk_table (hdr : ISZ_header) (content : Bytes) : Bytes :=
  xor_obfuscate
    ((content.drop hdr.chunk_pointers_offset).take (hdr.pointer_length * hdr.nblock))

/-- `ISZ_File.read_chunk_pointers`: a single synthetic `(Data, size1)` pointer
when `chunk_pointers_offset == 0`; otherwise only pointer width 3 is
supported, and each block decodes from its de-obfuscated 3-byte slice. -/
def read_chunk_pointers (hdr : ISZ_header) (content : Bytes) :
    PyResult (List (Nat × Nat)) :=
  if hdr.chunk_pointers_offset = 0 then
    .ok [(StorageMethods.Data, hdr.size1)]
  else if hdr.pointer_length ≠ 3 then
    .error .onlyPointerSize3
  else
    (List.range hdr.nblock).mapM
      (fun i => decode_chunk_pointer (((chunk_table hdr content).drop (i * 3)).take 3))

/-- The parsed state an `ISZ_File` handle works with after `open_isz_file`:
the header it observes, the segment table, the chunk-pointer table (method
tag, declared size), the base filename and the chosen naming strategy. -/
structure ISZ_File where
  isz_header : ISZ_header
  isz_segments : List ISZ_sdt
  chunk_pointers : List (Nat × Nat)
  filename : String
  name_gen : NameGen
deriving DecidableEq

/-- `ISZ_File.get_segment_name`. -/
def get_segment_name (st : ISZ_File) (seg_id : Nat) : String :=
  st.name_gen.apply st.filename seg_id

/-- `ISZ_File.read_data`: open the segment's file, seek to `offset`, read
`size` bytes (fewer near the end of the file, as in Python).  A missing file
raises `FileNotFoundError`; a negative seek position or read size raises. -/
def read_data (st : ISZ_File) (fs : FS) (seg_id : Nat) (offset size : Int) :
    PyResult Bytes :=
  match fs (get_segment_name st seg_id) with
  | none => .error (.fileNotFound (get_segment_name st seg_id))
  | some content =>
      if offset < 0 ∨ size < 0 then .error .valueError
      else .ok ((content.drop offset.toNat).take size.toNat)

/-- Python list indexing with an `Int` index (negative indexes count from the
end; out of range is `none`, i.e. `IndexError`). -/
def pyIndex {α : Type} (l : List α) (i : Int) : Option α :=
  if 0 ≤ i then l.get? i.toNat
  else if (-i).toNat ≤ l.length then l.get? (l.length - (-i).toNat)
  else none

/-- Python `range(a, b)` over `Int`s. -/
def intRange (a b : Int) : List Int :=
  (List.range (b - a).toNat).map (fun k => a + Int.ofNat k)

/-- The offset-accumulation loop of `get_block`: starting from the segment's
`chunk_offset`, add the declared size of every chunk pointer in
`range(first, block_id)` whose method tag is not `Zeros`. -/
def accum_offset (ptrs : List (Nat × Nat)) (first bid : Int) (base : Int) :
    PyResult Int :=
  (intRange first bid).foldlM
    (fun acc i =>
      match pyIndex ptrs i with
      | none => .error PyErr.indexError
      | some p =>
          pure (if p.1 ≠ StorageMethods.Zeros then acc + (p.2 : Int) else acc))
    base

/-- What the segment-scanning loop of `get_block` establishes for the block:
the index of its segment, the segment itself, the accumulated read offset,
and whether the block is the last block of the segment. -/
structure BlockLoc where
  seg_id : Nat
  segment : ISZ_sdt
  cur_offset : Int
  is_last : Bool
deriving DecidableEq

/-- The `for seg_id in range(len(self.isz_segments))` scan of `get_block`:
find the first segment whose block range contains `bid` and accumulate the
in-segment offset; fall through to `'Unable to find the segment of block'`. -/
def locate_block (ptrs : List (Nat × Nat)) (bid : Nat) :
    List ISZ_sdt → Nat → PyResult BlockLoc
  | [], _ => .error (.unableToFindSegmentOfBlock bid)
  | seg :: rest, seg_id =>
      let first := seg.first_chunck_number
      let last := first + seg.number_of_chunks - 1
      if (bid : Int) ≥ first ∧ (bid : Int) ≤ last then
        (accum_offset ptrs first (bid : Int) seg.chunk_offset).map
          (fun off => ⟨seg_id, seg, off, decide ((bid : Int) = last)⟩)
      else locate_block ptrs bid rest (seg_id + 1)

/-- `ISZ_File.get_block`: locate the block's segment and offset, read its
bytes (the segment's last block reads `left_size` fewer bytes here and, when
`left_size != 0`, the remaining `left_size` bytes from the next segment file
at offset 64, concatenated after); fail unless exactly the declared number of
bytes results. -/
def get_block (st : ISZ_File) (fs : FS) (block_id : Nat) : PyResult Bytes :=
  (match st.chunk_pointers.get? block_id with
   | some p => pure p
   | none => Except.error PyErr.indexError) >>= fun p =>
  locate_block st.chunk_pointers block_id st.isz_segments 0 >>= fun loc =>
  read_data st fs loc.seg_id loc.cur_offset
    (if loc.is_last then (p.2 : Int) - loc.segment.left_size
     else (p.2 : Int)) >>= fun data =>
  (if loc.is_last ∧ loc.segment.left_size ≠ 0 then
     (read_data st fs (loc.seg_id + 1) 64 loc.segment.left_size).map
       (fun data2 => data ++ data2)
   else pure data) >>= fun data =>
  if data.length = p.2 then pure data
  else .error (.unableToReadBlock block_id)

/-- The two external decompression routines (`zlib.decompress`,
`bz2.decompress`), taken as parameters of the model. -/
structure Codecs where
  zlibDecompress : Bytes → PyResult Bytes
  bz2Decompress : Bytes → PyResult Bytes

/-- `ISZ_File.decompress_block`: `Zeros` is a zero-filled buffer of the
declared size with no disk access; `Data` is the located bytes unmodified;
`Zlib` decompresses them; `Bzip2` first restores the mangled 3-byte stream
header to `B`, `Z`, `h` (ASCII 66, 90, 104). -/
def decompress_block (st : ISZ_File) (fs : FS) (c : Codecs) (block_id : Nat) :
    PyResult Bytes :=
  (match st.chunk_pointers.get? block_id with
   | some p => pure p
   | none => Except.error PyErr.indexError) >>= fun p =>
  if p.1 = StorageMethods.Zeros then
    pure (List.replicate p.2 0)
  else
    get_block st fs block_id >>= fun data =>
    if p.1 = StorageMethods.Data then
      pure data
    else if p.1 = StorageMethods.Zlib then
      c.zlibDecompress data
    else if p.1 = StorageMethods.Bzip2 then
      match data with
      | _b0 :: _b1 :: _b2 :: rest => c.bz2Decompress (66 :: 90 :: 104 :: rest)
      | _ => .error PyErr.indexError
    else
      .error PyErr.typeErrorNone

/-- One bit step of the standard reflected CRC-32 (polynomial `0xedb88320`). -/
def crc32_step (c : Nat) : Nat :=
  if c % 2 = 1 then 0xedb88320 ^^^ (c / 2) else c / 2

/-- Fold one byte into the CRC-32 state. -/
def crc32_byte (c b : Nat) : Nat := crc32_step^[8] (c ^^^ b % 256)

/-- `zlib.crc32(data, seed)`: pre- and post-complemented reflected CRC-32
with the previous value as running seed. -/
def crc32 (data : Bytes) (seed : Nat) : Nat :=
  (data.foldl crc32_byte (mask32 seed ^^^ 0xffffffff)) ^^^ 0xffffffff

/-- The accumulation loop of `verify_isz_file` over a list of block ids:
`Zeros` blocks are skipped, every other block is read through `get_block`,
its length checked against the declared size, and folded into the CRC. -/
def verify_crc_loop (st : ISZ_File) (fs : FS) (ids : List Nat) (crc0 : Nat) :
    PyResult Nat :=
  ids.foldlM
    (fun crc block_id =>
      (match st.chunk_pointers.get? block_id with
       | some p => pure p
       | none => Except.error PyErr.indexError) >>= fun p =>
      if p.1 ≠ 0 then
        get_block st fs block_id >>= fun data =>
        if data.length ≠ p.2 then Except.error PyErr.wrongDataSize
        else pure (mask32 (crc32 data crc))
      else pure crc)
    crc0

/-- `ISZ_File.verify_isz_file`: CRC over the compressed bytes of all
non-`Zeros` blocks, compared (complemented) against `checksum2`. -/
def verify_isz_file (st : ISZ_File) (fs : FS) : PyResult Bool :=
  (verify_crc_loop st fs (List.range st.chunk_pointers.length) 0).map
    (fun crc => decide (not32 crc = st.isz_header.checksum2))

/-- The accumulation loop of `verify_uncompress_isz_file`: every block is
decompressed and folded into the CRC. -/
def uncompress_crc_loop (st : ISZ_File) (fs : FS) (c : Codecs) (ids : List Nat)
    (crc0 : Nat) : PyResult Nat :=
  ids.foldlM
    (fun crc block_id =>
      decompress_block st fs c block_id >>= fun data =>
      pure (mask32 (crc32 data crc)))
    crc0

/-- `ISZ_File.verify_uncompress_isz_file`: CRC over the decompressed bytes of
all blocks, compared (complemented) against `checksum1`. -/
def verify_uncompress_isz_file (st : ISZ_File) (fs : FS) (c : Codecs) :
    PyResult Bool :=
  (uncompress_crc_loop st fs c (List.range st.chunk_pointers.length) 0).map
    (fun crc => decide (not32 crc = st.isz_header.checksum1))

/-- The write loop of `extract_to`: decompress each block in order, append
its bytes to the output file and fold them into the CRC.  The first component
is the output written so far — it is kept even when a block fails. -/
def extract_loop (st : ISZ_File) (fs : FS) (c : Codecs) :
    List Nat → Bytes → Nat → Bytes × PyResult Nat
  | [], out, crc => (out, .ok crc)
  | block_id :: rest, out, crc =>
      match decompress_block st fs c block_id with
      | .error e => (out, .error e)
      | .ok data => extract_loop st fs c rest (out ++ data) (mask32 (crc32 data crc))

/-- `ISZ_File.extract_to`: write every decompressed block in block order,
then fail with `'CRC Error during extraction'` when the complemented CRC
differs from `checksum1`.  The first component is the content of the
destination file — already-written output is not rolled back on failure. -/
def extract_to (st : ISZ_File) (fs : FS) (c : Codecs) : Bytes × PyResult Unit :=
  match extract_loop st fs c (List.range st.chunk_pointers.length) [] 0 with
  | (out, .error e) => (out, .error e)
  | (out, .ok crc) =>
      if not32 crc ≠ st.isz_header.checksum1 then
        (out, .error .crcErrorDuringExtraction)
      else (out, .ok ())

/-- The per-instance attributes that `open_isz_file` creates fresh:
`close_file` re-assigns `self.isz_segments = []` and
`self.chunk_pointers = []`, turning them into instance attributes, so both
lists are per-handle.  `self.isz_header` is never re-assigned: every
attribute access resolves to the single class-level `ISZ_header()` object,
which `read_header`'s `readinto` mutates in place. -/
structure ISZ_instance where
  isz_segments : List ISZ_sdt
  chunk_pointers : List (Nat × Nat)
  filename : String
  name_gen : NameGen
deriving DecidableEq

/-- The zero-initialized class-level `ISZ_header()` object. -/
def init_header : ISZ_header := decode_header (List.replicate 64 0)

/-- `ISZ_File.open_isz_file` for one instance: takes the current value of the
shared class-level header object and the filesystem, returns the new value of
the shared header (mutated by `readinto`) together with the per-instance
parsed state, or the error raised. -/
def open_isz_file (shared : ISZ_header) (fs : FS) (filename : String) :
    ISZ_header × PyResult ISZ_instance :=
  match fs filename with
  | none => (shared, .error (.fileNotFound filename))
  | some content =>
      let res := read_header shared content
      let hdr := res.1
      match res.2 with
      | .error e => (hdr, .error e)
      | .ok _ =>
          if hdr.file_seg_number ≠ 0 then (hdr, .error .notFirstSegment)
          else
            match read_segments hdr filename content fs with
            | .error e => (hdr, .error e)
            | .ok (segs, ng) =>
                match read_chunk_pointers hdr content with
                | .error e => (hdr, .error e)
                | .ok ptrs => (hdr, .ok ⟨segs, ptrs, filename, ng⟩)

/-- The `ISZ_File` state a handle observes: its own lists and filename, but
the shared class-level header as it currently stands. -/
def observe (shared : ISZ_header) (inst : ISZ_instance) : ISZ_File :=
  ⟨shared, inst.isz_segments, inst.chunk_pointers, inst.filename, inst.name_gen⟩

/-! ## Concrete containers used by the witness theorems -/

/-- A concrete single-file header: both table offsets 0, 7 blocks, data at 64,
compressed size field 123. -/
def hdrW7 : ISZ_header :=
  { signature := iszMagic, header_size := 64, version_number := 1
    volume_serial_number := 0, sector_size := 2048, total_sectors := 4
    encryption_type := 0, segment_size := 0, nblock := 7, block_size := 2048
    pointer_length := 3, file_seg_number := 0, chunk_pointers_offset := 0
    segment_pointers_offset := 0, data_offset := 64, reserved := 0
    checksum1 := 0, size1 := 123, unknown2 := 0, checksum2 := 0 }

/-- A filesystem holding only the base file `disk.isz`. -/
def fsW7 : FS := fun n => if n = "disk.isz" then some [] else none

/-- A header whose chunk-pointer table lives at offset 64 and holds one
packed pointer. -/
def hdrW8 : ISZ_header :=
  { hdrW7 with chunk_pointers_offset := 64, pointer_length := 3, nblock := 1 }

/-- The file content for `hdrW8`: the packed pointer bytes obfuscate the
little-endian 24-bit value `0xC01234` (tag 3, size `0x1234`). -/
def contentW8 : Bytes := List.replicate 64 0 ++ xor_obfuscate [0x34, 0x12, 0xC0]

/-- A filesystem holding a sibling `disk.i01` for the first naming rule. -/
def fsW9 : FS := fun n => if n = "disk.i01" then some [] else none

/-- A filesystem holding a sibling `disk.part02.isz` for the second rule. -/
def fsW9b : FS := fun n => if n = "disk.part02.isz" then some [] else none

/-- Little-endian bytes of a 32-bit value. -/
def u32b (n : Nat) : Bytes :=
  [n % 256, n / 256 % 256, n / 65536 % 256, n / 16777216 % 256]

/-- A well-formed 64-byte single-file header with the given serial number:
signature `IsZ!`, version 1, segment index 0, both table offsets 0. -/
def mkHeaderBytes (serial : Nat) : Bytes :=
  iszMagic ++ [64, 1] ++ u32b serial ++ [0, 8] ++ u32b 4 ++ [0] ++
  List.replicate 8 0 ++ u32b 0 ++ u32b 2048 ++ [3] ++ [0] ++
  u32b 0 ++ u32b 0 ++ u32b 64 ++ [0] ++ u32b 0 ++ u32b 2 ++ u32b 0 ++ u32b 0

/-- Container file `a.isz`, serial `0x11111111`. -/
def fileA : Bytes := mkHeaderBytes 0x11111111 ++ [0xaa, 0xbb]

/-- Container file `b.isz`, serial `0x22222222`. -/
def fileB : Bytes := mkHeaderBytes 0x22222222 ++ [0xcc, 0xdd]

/-- A filesystem holding both containers. -/
def fsAB : FS :=
  fun n => if n = "a.isz" then some fileA else if n = "b.isz" then some fileB else none

/-- The first open: handle 1 opens `a.isz` starting from the pristine
class-level header. -/
def openA : ISZ_header × PyResult ISZ_instance := open_isz_file init_header fsAB "a.isz"

/-- The second open: handle 2 opens `b.isz`; the class-level header is the one
`openA` left behind, and `readinto` overwrites it. -/
def openB : ISZ_header × PyResult ISZ_instance := open_isz_file openA.1 fsAB "b.isz"

/-- A four-block single-segment container exercising all four methods. -/
def segW5 : ISZ_sdt :=
  { size := 0, number_of_chunks := 4, first_chunck_number := 0,
    chunk_offset := 64, left_size := 0 }

/-- Handle state for the `segW5` container:
blocks `[Zeros(4), Data(2), Zlib(2), Bzip2(5)]`. -/
def stW5 : ISZ_File :=
  { isz_header := init_header, isz_segments := [segW5],
    chunk_pointers := [(0, 4), (1, 2), (2, 2), (3, 5)],
    filename := "w.isz", name_gen := .noChange }

/-- The container file for `stW5`: data region holds the three non-`Zeros`
blocks back to back. -/
def fsW5 : FS :=
  fun n =>
    if n = "w.isz" then
      some (List.replicate 64 0 ++ [1, 2] ++ [3, 4] ++ [9, 9, 9, 7, 8])
    else none

/-- Toy codecs for the witness: zlib doubles its input, bzip2 is identity. -/
def cW5 : Codecs :=
  { zlibDecompress := fun d => .ok (d ++ d), bz2Decompress := fun d => .ok d }

/-- The sum of the declared sizes of exactly those chunk pointers with index
in `[first, bid)` whose method tag is not `Zeros` — the specification-side
description of the locator's offset bookkeeping. -/
def nonZerosSizeSum (ptrs : List (Nat × Nat)) (first bid : Nat) : Nat :=
  ((((ptrs.take bid).drop first).filter
      (fun p => p.1 != StorageMethods.Zeros)).map Prod.snd).sum

/-- The spec's example segment: blocks `[Zeros(100), Data(50), Data(30)]`
starting at block 0, data at offset 1000. -/
def segC1 : ISZ_sdt :=
  { size := 0, number_of_chunks := 3, first_chunck_number := 0,
    chunk_offset := 1000, left_size := 0 }

/-- A one-block segment whose 5-byte block has 2 leftover bytes in the next
segment file. -/
def segC2 : ISZ_sdt :=
  { size := 5, number_of_chunks := 1, first_chunck_number := 0,
    chunk_offset := 64, left_size := 2 }

/-- Handle state for the split-block container (naming rule 1, so segment 1
is `w.i01`). -/
def stC2 : ISZ_File :=
  { isz_header := init_header, isz_segments := [segC2],
    chunk_pointers := [(1, 5)], filename := "w.isz", name_gen := .gen1 }

/-- Filesystem with the two segment files: `w.isz` holds bytes `1, 2, 3` of
the block, `w.i01` holds the remaining `4, 5` right after its 64-byte
header. -/
def fsC2 : FS :=
  fun n =>
    if n = "w.isz" then some (List.replicate 64 0 ++ [1, 2, 3])
    else if n = "w.i01" then some (List.replicate 64 0 ++ [4, 5])
    else none

/-- The correct complemented CRC of the single compressed block
`[0xaa, 0xbb]`. -/
def cksC3 : Nat := not32 (crc32 [0xaa, 0xbb] 0)

/-- A two-block segment: `Zeros(3)` then `Data(2)`. -/
def segC3 : ISZ_sdt :=
  { size := 0, number_of_chunks := 2, first_chunck_number := 0,
    chunk_offset := 64, left_size := 0 }

/-- Handle whose `checksum2` is the correct compressed CRC. -/
def stC3good : ISZ_File :=
  { isz_header := { hdrW7 with checksum2 := cksC3 }, isz_segments := [segC3],
    chunk_pointers := [(0, 3), (1, 2)], filename := "w.isz", name_gen := .noChange }

/-- The same handle with `checksum2` corrupted by one bit. -/
def stC3bad : ISZ_File :=
  { stC3good with isz_header := { hdrW7 with checksum2 := cksC3 ^^^ 1 } }

/-- The container file for `stC3good`/`stC3bad`. -/
def fsC3 : FS :=
  fun n => if n = "w.isz" then some (List.replicate 64 0 ++ [0xaa, 0xbb]) else none

/-- The correct complemented CRC of the uncompressed image
`[0, 0, 0, 0xaa, 0xbb]` (the `Zeros(3)` block contributes its zero bytes). -/
def cksC4 : Nat := not32 (crc32 [0, 0, 0, 0xaa, 0xbb] 0)

/-- Handle whose `checksum1` is the correct uncompressed CRC. -/
def stC4good : ISZ_File :=
  { isz_header := { hdrW7 with checksum1 := cksC4 }, isz_segments := [segC3],
    chunk_pointers := [(0, 3), (1, 2)], filename := "w.isz", name_gen := .noChange }

/-- The same handle with a wrong `checksum1`. -/
def stC4bad : ISZ_File :=
  { stC4good with isz_header := { hdrW7 with checksum1 := 0 } }

/-! ## Generic helper lemmas -/

instance {ε α : Type} [DecidableEq ε] [DecidableEq α] : DecidableEq (Except ε α) :=
  fun x y =>
    match x, y with
    | .ok a, .ok b => decidable_of_iff (a = b) (by simp)
    | .error a, .error b => decidable_of_iff (a = b) (by simp)
    | .ok _, .error _ => .isFalse (by simp)
    | .error _, .ok _ => .isFalse (by simp)

theorem ok_bind {ε α β : Type} (a : α) (f : α → Except ε β) :
    (Except.ok a >>= f) = f a := rfl

theorem error_bind {ε α β : Type} (e : ε) (f : α → Except ε β) :
    ((Except.error e : Except ε α) >>= f) = Except.error e := rfl

theorem bind_eq_ok {ε α β : Type} {x : Except ε α} {f : α → Except ε β} {b : β} :
    x >>= f = .ok b ↔ ∃ a, x = .ok a ∧ f a = .ok b := by
  cases x with
  | error e => simp [error_bind]
  | ok a => simp [ok_bind]

theorem map_eq_ok {ε α β : Type} {x : Except ε α} {f : α → β} {b : β} :
    x.map f = .ok b ↔ ∃ a, x = .ok a ∧ f a = b := by
  cases x with
  | error e => simp [Except.map]
  | ok a => simp [Except.map]

theorem getD_map_range {α : Type} (n : ℕ) (f : ℕ → α) (d : α) (i : ℕ) (h : i < n) :
    ((List.range n).map f).getD i d = f i := by
  rw [List.getD_eq_getElem _ _ (by simpa using h)]
  simp

theorem map_range_getD {α : Type} (l : List α) (d : α) :
    (List.range l.length).map (fun i => l.getD i d) = l := by
  apply List.ext_getElem (by simp)
  intro i h1 h2
  simp [List.getD_eq_getElem _ _ h2, List.getElem?_eq_getElem h2]

theorem mapM_ok_forall₂ {ε α β : Type} (f : α → Except ε β) :
    ∀ {xs : List α} {rs : List β}, xs.mapM f = .ok rs →
      List.Forall₂ (fun x r => f x = .ok r) xs rs := by
  intro xs
  induction xs with
  | nil => intro rs h; simp only [List.mapM_nil] at h; cases h; constructor
  | cons a l ih =>
      intro rs h
      rw [List.mapM_cons] at h
      obtain ⟨b, hb, h⟩ := bind_eq_ok.mp h
      obtain ⟨bs, hbs, h⟩ := bind_eq_ok.mp h
      cases h
      exact List.forall₂_cons.mpr ⟨hb, ih hbs⟩

/-! ## C6: the obfuscation codec -/

/-- C6: `xor_obfuscate` XORs the byte at each position `i` with
`code[i mod 4]` where `code = (0xB6, 0x8C, 0xA5, 0xDE)`, so for every byte
sequence the transform is its own inverse and the output has the same length
as the input. -/
theorem claim6_xor_obfuscate_involutive (data : Bytes) :
    xor_obfuscate (xor_obfuscate data) = data ∧
    (xor_obfuscate data).length = data.length ∧
    (∀ i, i < data.length →
      (xor_obfuscate data).getD i 0 = data.getD i 0 ^^^ xor_code.getD (i % 4) 0) := by
  have hlen : ∀ bs : Bytes, (xor_obfuscate bs).length = bs.length := by
    intro bs; simp [xor_obfuscate]
  have hpt : ∀ (bs : Bytes) (i : ℕ), i < bs.length →
      (xor_obfuscate bs).getD i 0 = bs.getD i 0 ^^^ xor_code.getD (i % 4) 0 := by
    intro bs i h
    simp only [xor_obfuscate]
    exact getD_map_range _ _ _ _ h
  refine ⟨?_, hlen data, hpt data⟩
  apply List.ext_getElem (by rw [hlen, hlen])
  intro i h1 h2
  have hi : i < (xor_obfuscate data).length := by rw [hlen]; exact h2
  rw [← List.getD_eq_getElem _ 0 h1, hpt _ i hi, hpt _ i h2,
    Nat.xor_cancel_right, List.getD_eq_getElem _ 0 h2]

/-- Witness for C6 at the concrete byte sequence `[16, 32, 250]`. -/
theorem claim6_witness :
    xor_obfuscate (xor_obfuscate [16, 32, 250]) = [16, 32, 250] ∧
    (xor_obfuscate [16, 32, 250]).getD 2 0 = 250 ^^^ 0xa5 := by
  refine ⟨(claim6_xor_obfuscate_involutive [16, 32, 250]).1, ?_⟩
  have h := (claim6_xor_obfuscate_involutive [16, 32, 250]).2.2 2 (by decide)
  simpa using h

/-! ## C7: synthetic chunk pointer and segment descriptor -/

/-- C7: with `chunk_pointers_offset == 0` the chunk-pointer table is exactly
one `Data` (Raw-Data) pointer of size `size1`; with
`segment_pointers_offset == 0` the segment table is exactly one descriptor
with first block 0, block count `nblock`, data start `data_offset` and
leftover 0 (the base file must exist — it was just opened — and the two
counters must fit a ctypes `c_int32`, which stores them). -/
theorem claim7_synthetic_tables (hdr : ISZ_header) (content : Bytes)
    (filename : String) (fs : FS)
    (hc : hdr.chunk_pointers_offset = 0)
    (hs : hdr.segment_pointers_offset = 0)
    (hfile : (fs filename).isSome = true)
    (hn : hdr.nblock < 2 ^ 31)
    (hd : hdr.data_offset < 2 ^ 31) :
    read_chunk_pointers hdr content = .ok [(StorageMethods.Data, hdr.size1)] ∧
    read_segments hdr filename content fs =
      .ok ([{ size := 0, number_of_chunks := (hdr.nblock : Int),
              first_chunck_number := 0, chunk_offset := (hdr.data_offset : Int),
              left_size := 0 }], NameGen.noChange) := by
  constructor
  · simp [read_chunk_pointers, hc]
  · have hsyn : synthetic_segment hdr =
        { size := 0, number_of_chunks := (hdr.nblock : Int),
          first_chunck_number := 0, chunk_offset := (hdr.data_offset : Int),
          left_size := 0 } := by
      have h32 : ∀ m : ℕ, m < 2 ^ 31 → toInt32 (m : Int) = (m : Int) := by
        intro m hm
        simp only [toInt32]
        split <;> omega
      simp [synthetic_segment, h32 _ hn, h32 _ hd]
    have hchk : check_segment_names filename NameGen.noChange fs 1 = .ok () := by
      simp [check_segment_names, List.range_succ, NameGen.apply,
        name_generator_no_change, hfile]
    simp [read_segments, hs, hsyn, hchk, ok_bind]

/-- Witness for C7 at the concrete header `hdrW7`. -/
theorem claim7_witness :
    read_chunk_pointers hdrW7 [] = .ok [(StorageMethods.Data, hdrW7.size1)] ∧
    read_segments hdrW7 "disk.isz" [] fsW7 =
      .ok ([{ size := 0, number_of_chunks := (hdrW7.nblock : Int),
              first_chunck_number := 0, chunk_offset := (hdrW7.data_offset : Int),
              left_size := 0 }], NameGen.noChange) :=
  claim7_synthetic_tables hdrW7 [] "disk.isz" fsW7 rfl rfl (by decide)
    (by decide) (by decide)

/-! ## C8: packed 24-bit chunk-pointer decoding -/

theorem xor_obfuscate_bytes_lt {data : Bytes} (h : ∀ b ∈ data, b < 256) :
    ∀ b ∈ xor_obfuscate data, b < 256 := by
  intro b hb
  simp only [xor_obfuscate, List.mem_map, List.mem_range] at hb
  obtain ⟨i, hi, rfl⟩ := hb
  have h1 : data.getD i 0 < 256 := by
    rw [List.getD_eq_getElem _ _ hi]
    exact h _ (List.getElem_mem hi)
  have h2 : xor_code.getD (i % 4) 0 < 256 := by
    have : i % 4 < 4 := Nat.mod_lt _ (by norm_num)
    interval_cases h : i % 4 <;> decide
  exact Nat.xor_lt_two_pow (n := 8) h1 h2

theorem chunk_table_bytes_lt (hdr : ISZ_header) {content : Bytes}
    (h : ∀ b ∈ content, b < 256) : ∀ b ∈ chunk_table hdr content, b < 256 := by
  apply xor_obfuscate_bytes_lt
  intro b hb
  exact h b (List.mem_of_mem_drop (List.mem_of_mem_take hb))

/-- C8: with a nonzero `chunk_pointers_offset`, parsing fails unless the
declared pointer width is 3; otherwise block `i`'s pointer decodes from the
de-obfuscated bytes at positions `3i..3i+2` as a little-endian 24-bit value
`v` with method tag `v >>> 22` and size `v &&& 0x3FFFFF`, so every tag is in
0..3 and every size is at most 4194303. -/
theorem claim8_packed_pointer_decoding (hdr : ISZ_header) (content : Bytes)
    (hc : hdr.chunk_pointers_offset ≠ 0)
    (hwf : ∀ b ∈ content, b < 256) :
    (hdr.pointer_length ≠ 3 →
      read_chunk_pointers hdr content = .error PyErr.onlyPointerSize3) ∧
    (∀ ptrs, read_chunk_pointers hdr content = .ok ptrs →
      ptrs.length = hdr.nblock ∧
      ∀ i, i < hdr.nblock →
        ∃ b0 b1 b2,
          ((chunk_table hdr content).drop (i * 3)).take 3 = [b0, b1, b2] ∧
          ptrs.getD i (0, 0) =
            ((b2 * 256 * 256 + b1 * 256 + b0) >>> 22,
             (b2 * 256 * 256 + b1 * 256 + b0) &&& 0x3fffff) ∧
          (ptrs.getD i (0, 0)).1 ≤ 3 ∧ (ptrs.getD i (0, 0)).2 ≤ 4194303) := by
  constructor
  · intro hpl
    simp [read_chunk_pointers, hc, hpl]
  · intro ptrs h
    by_cases hpl : hdr.pointer_length = 3
    · simp only [read_chunk_pointers, if_neg hc, if_neg (not_not_intro hpl)] at h
      have hf := mapM_ok_forall₂ _ h
      have hlen := hf.length_eq
      simp only [List.length_range] at hlen
      refine ⟨hlen.symm ▸ rfl, ?_⟩
      intro i hi
      have hi1 : i < (List.range hdr.nblock).length := by simpa using hi
      have hi2 : i < ptrs.length := by omega
      have h2 := (List.forall₂_iff_get.mp hf).2 i hi1 hi2
      simp only [List.get_eq_getElem, List.getElem_range] at h2
      rcases hdm : ((chunk_table hdr content).drop (i * 3)).take 3 with
        _ | ⟨b0, _ | ⟨b1, _ | ⟨b2, rest⟩⟩⟩ <;>
        rw [hdm] at h2 <;>
        simp only [decode_chunk_pointer, List.get?] at h2
      · exact absurd h2 (by simp)
      · exact absurd h2 (by simp)
      · exact absurd h2 (by simp)
      · have htk := List.length_take_le 3 ((chunk_table hdr content).drop (i * 3))
        rw [hdm] at htk
        simp only [List.length_cons] at htk
        have hrest : rest = [] := List.length_eq_zero.mp (by omega)
        subst hrest
        have hmem : ∀ b ∈ ((chunk_table hdr content).drop (i * 3)).take 3, b < 256 := by
          intro b hb
          exact chunk_table_bytes_lt hdr hwf b
            (List.mem_of_mem_drop (List.mem_of_mem_take hb))
        have hb0 : b0 < 256 := hmem b0 (by rw [hdm]; simp)
        have hb1 : b1 < 256 := hmem b1 (by rw [hdm]; simp)
        have hb2 : b2 < 256 := hmem b2 (by rw [hdm]; simp)
        refine ⟨b0, b1, b2, rfl, ?_, ?_, ?_⟩
        · rw [List.getD_eq_getElem _ _ hi2]
          exact (Except.ok.inj h2).symm
        · rw [List.getD_eq_getElem _ _ hi2, ← Except.ok.inj h2]
          have : (b2 * 256 * 256 + b1 * 256 + b0) >>> 22 < 4 := by
            rw [Nat.shiftRight_eq_div_pow]
            exact (Nat.div_lt_iff_lt_mul (by norm_num)).mpr (by omega)
          omega
        · rw [List.getD_eq_getElem _ _ hi2, ← Except.ok.inj h2]
          exact Nat.and_le_right
    · simp only [read_chunk_pointers, if_neg hc, if_pos hpl] at h
      exact absurd h (by simp)

/-- Witness for C8: the unsupported-width failure at width 4, and the decode
of the single packed pointer `(3, 4660)` at width 3. -/
theorem claim8_witness :
    read_chunk_pointers { hdrW8 with pointer_length := 4 } contentW8 =
      .error PyErr.onlyPointerSize3 ∧
    (∃ b0 b1 b2,
      ((chunk_table hdrW8 contentW8).drop (0 * 3)).take 3 = [b0, b1, b2] ∧
      ([(3, 4660)] : List (Nat × Nat)).getD 0 (0, 0) =
        ((b2 * 256 * 256 + b1 * 256 + b0) >>> 22,
         (b2 * 256 * 256 + b1 * 256 + b0) &&& 0x3fffff) ∧
      (([(3, 4660)] : List (Nat × Nat)).getD 0 (0, 0)).1 ≤ 3 ∧
      (([(3, 4660)] : List (Nat × Nat)).getD 0 (0, 0)).2 ≤ 4194303) :=
  ⟨(claim8_packed_pointer_decoding { hdrW8 with pointer_length := 4 } contentW8
      (by decide) (by decide)).1 (by decide),
   ((claim8_packed_pointer_decoding hdrW8 contentW8 (by decide) (by decide)).2
      [(3, 4660)] (by decide)).2 0 (by decide)⟩

/-! ## C9: naming-convention detection and segment existence -/

theorem check_segment_names_ok_iff (filename : String) (ng : NameGen) (fs : FS)
    (n : Nat) :
    check_segment_names filename ng fs n = .ok () ↔
      ∀ i, i < n → (fs (ng.apply filename i)).isSome = true := by
  induction n with
  | zero =>
      constructor
      · intro _ i hi; omega
      · intro _; rfl
  | succ n ih =>
      unfold check_segment_names at ih ⊢
      rw [List.range_succ, List.foldlM_append]
      constructor
      · intro h
        obtain ⟨u, hu, hstep⟩ := bind_eq_ok.mp h
        obtain ⟨⟩ := u
        simp only [List.foldlM_cons, List.foldlM_nil] at hstep
        by_cases hs : (fs (ng.apply filename n)).isSome = true
        · intro i hi
          rcases Nat.lt_succ_iff_lt_or_eq.mp hi with h' | rfl
          · exact ih.mp hu i h'
          · exact hs
        · rw [if_neg hs] at hstep
          simp [error_bind] at hstep
      · intro h
        rw [ih.mpr (fun i hi => h i (Nat.lt_succ_of_lt hi))]
        simp only [ok_bind, List.foldlM_cons, List.foldlM_nil]
        rw [if_pos (h n (Nat.lt_succ_self n))]
        rfl

theorem check_segment_names_first_missing (filename : String) (ng : NameGen)
    (fs : FS) (n i : Nat) (hin : i < n)
    (hmiss : (fs (ng.apply filename i)).isSome = false)
    (hbefore : ∀ j, j < i → (fs (ng.apply filename j)).isSome = true) :
    check_segment_names filename ng fs n = .error (.missingSegment i) := by
  have hsplit : n = (i + 1) + (n - i - 1) := by omega
  rw [hsplit]
  unfold check_segment_names
  rw [List.range_add, List.foldlM_append, List.range_succ, List.foldlM_append]
  have h1 : (check_segment_names filename ng fs i) = .ok () :=
    (check_segment_names_ok_iff filename ng fs i).mpr hbefore
  unfold check_segment_names at h1
  rw [h1]
  simp only [ok_bind, List.foldlM_cons, List.foldlM_nil]
  rw [if_neg (by rw [hmiss]; exact Bool.false_ne_true)]
  rfl

theorem read_segments_ok_parts (hdr : ISZ_header) (filename : String)
    (content : Bytes) (fs : FS) (segs : List ISZ_sdt) (ng : NameGen)
    (h : read_segments hdr filename content fs = .ok (segs, ng)) :
    (1 < segs.length → detect_file_naming_convention filename fs = .ok ng) ∧
    (∀ i, i < segs.length → (fs (ng.apply filename i)).isSome = true) := by
  unfold read_segments at h
  obtain ⟨segs', hsegs, h⟩ := bind_eq_ok.mp h
  obtain ⟨ng', hng, h⟩ := bind_eq_ok.mp h
  obtain ⟨u, hchk, h⟩ := bind_eq_ok.mp h
  obtain ⟨⟩ := u
  have hp := Except.ok.inj h
  cases hp
  constructor
  · intro hlen
    rw [if_pos hlen] at hng
    exact hng
  · intro i hi
    exact (check_segment_names_ok_iff filename _ fs _).mp hchk i hi

/-- C9: with more than one parsed descriptor, detection tries the three
generator rules in order and selects the first whose segment-1 candidate
exists; it fails when the base filename does not end in `.isz` or when no
candidate for segment 1 exists; afterwards every segment index `0..N-1` must
map to an existing file, the first missing index being named in the error. -/
theorem claim9_naming_convention :
    (∀ (filename : String) (fs : FS), str_endswith filename ".isz" = false →
      detect_file_naming_convention filename fs =
        .error PyErr.firstFileNeedsIszExtension) ∧
    (∀ (filename : String) (fs : FS), str_endswith filename ".isz" = true →
      ((fs (name_generator_1 filename 1)).isSome = true →
        detect_file_naming_convention filename fs = .ok .gen1) ∧
      ((fs (name_generator_1 filename 1)).isSome = false →
        (fs (name_generator_2 filename 1)).isSome = true →
        detect_file_naming_convention filename fs = .ok .gen2) ∧
      ((fs (name_generator_1 filename 1)).isSome = false →
        (fs (name_generator_2 filename 1)).isSome = false →
        (fs (name_generator_3 filename 1)).isSome = true →
        detect_file_naming_convention filename fs = .ok .gen3) ∧
      ((fs (name_generator_1 filename 1)).isSome = false →
        (fs (name_generator_2 filename 1)).isSome = false →
        (fs (name_generator_3 filename 1)).isSome = false →
        detect_file_naming_convention filename fs =
          .error PyErr.namingConventionNotFound)) ∧
    (∀ (hdr : ISZ_header) (filename : String) (content : Bytes) (fs : FS)
        (segs : List ISZ_sdt) (ng : NameGen),
      read_segments hdr filename content fs = .ok (segs, ng) →
      (1 < segs.length → detect_file_naming_convention filename fs = .ok ng) ∧
      (∀ i, i < segs.length → (fs (ng.apply filename i)).isSome = true)) ∧
    (∀ (filename : String) (ng : NameGen) (fs : FS) (n i : Nat), i < n →
      (fs (ng.apply filename i)).isSome = false →
      (∀ j, j < i → (fs (ng.apply filename j)).isSome = true) →
      check_segment_names filename ng fs n = .error (.missingSegment i)) := by
  refine ⟨?_, ?_, ?_, ?_⟩
  · intro filename fs h
    simp [detect_file_naming_convention, h]
  · intro filename fs h
    refine ⟨?_, ?_, ?_, ?_⟩
    · intro h1; simp [detect_file_naming_convention, h, h1]
    · intro h1 h2; simp [detect_file_naming_convention, h, h1, h2]
    · intro h1 h2 h3; simp [detect_file_naming_convention, h, h1, h2, h3]
    · intro h1 h2 h3; simp [detect_file_naming_convention, h, h1, h2, h3]
  · intro hdr filename content fs segs ng h
    exact read_segments_ok_parts hdr filename content fs segs ng h
  · intro filename ng fs n i hin hmiss hbefore
    exact check_segment_names_first_missing filename ng fs n i hin hmiss hbefore

/-- Witness for C9: the `.isz` extension failure, rule-1 and rule-2 selection
on concrete siblings, and the missing-segment error naming index 0. -/
theorem claim9_witness :
    detect_file_naming_convention "readme.txt" fsW9 =
      .error PyErr.firstFileNeedsIszExtension ∧
    detect_file_naming_convention "disk.isz" fsW9 = .ok .gen1 ∧
    detect_file_naming_convention "disk.part01.isz" fsW9b = .ok .gen2 ∧
    check_segment_names "s.isz" NameGen.noChange (fun _ => none) 1 =
      .error (.missingSegment 0) :=
  ⟨claim9_naming_convention.1 "readme.txt" fsW9 (by decide),
   (claim9_naming_convention.2.1 "disk.isz" fsW9 (by decide)).1 (by decide),
   (claim9_naming_convention.2.1 "disk.part01.isz" fsW9b (by decide)).2.1
     (by decide) (by decide),
   claim9_naming_convention.2.2.2 "s.isz" NameGen.noChange (fun _ => none) 1 0
     (by decide) (by decide) (fun j hj => absurd hj (by omega))⟩

/-! ## C10: per-handle state versus the shared class-level header

In the source, `isz_header = ISZ_header()`, `isz_segments = []` and
`chunk_pointers = []` are declared at class scope.  `open_isz_file` first
calls `close_file`, which re-assigns the two lists (`self.isz_segments = []`,
`self.chunk_pointers = []`), creating per-instance attributes, so the parsed
tables are per-handle.  `self.isz_header` is never re-assigned: attribute
lookup always reaches the single class-level `ISZ_header()` object, and
`read_header` mutates it in place with `f.readinto(self)`.  Hence two handles
share one header object, and opening a second container overwrites the header
fields the first handle observes. -/

/-- C10 (refuted by the code): both opens succeed, every handle observes the
single shared class-level header, after `openA` it holds `a.isz`'s serial
`0x11111111`, and after `openB` it holds `b.isz`'s serial `0x22222222` — so
opening the second container changed the header fields handle 1 observes,
contradicting the claim that each handle owns an independent header copy (the
two parsed lists, by contrast, are re-assigned per open). -/
theorem claim10_shared_header_mutated :
    openA.2.isOk = true ∧
    openB.2.isOk = true ∧
    (∀ inst : ISZ_instance, (observe openB.1 inst).isz_header = openB.1) ∧
    openA.1.volume_serial_number = 0x11111111 ∧
    openB.1.volume_serial_number = 0x22222222 := by
  refine ⟨by decide, by decide, fun inst => rfl, by decide, by decide⟩

/-! ## C5: the decompression dispatcher -/

theorem bind_pure {ε α : Type} (x : Except ε α) : x >>= pure = x := by
  cases x <;> rfl

/-- C5: `decompress_block` dispatches on the method tag: `Zeros` returns a
zero-filled buffer of the declared size without touching the disk (the
equation holds for every filesystem and its right-hand side ignores it);
`Data` returns the located bytes unmodified; `Zlib` zlib-decompresses them;
`Bzip2` overwrites the first three located bytes with ASCII `B`, `Z`, `h`
(66, 90, 104) and bzip2-decompresses the result. -/
theorem claim5_decompress_dispatch (st : ISZ_File) (fs : FS) (c : Codecs)
    (bid t s : Nat)
    (hp : st.chunk_pointers.get? bid = some (t, s)) :
    (t = StorageMethods.Zeros →
      decompress_block st fs c bid = .ok (List.replicate s 0)) ∧
    (t = StorageMethods.Data →
      decompress_block st fs c bid = get_block st fs bid) ∧
    (t = StorageMethods.Zlib →
      decompress_block st fs c bid = get_block st fs bid >>= c.zlibDecompress) ∧
    (t = StorageMethods.Bzip2 →
      decompress_block st fs c bid = get_block st fs bid >>= fun data =>
        match data with
        | _b0 :: _b1 :: _b2 :: rest => c.bz2Decompress (66 :: 90 :: 104 :: rest)
        | _ => .error PyErr.indexError) := by
  unfold decompress_block
  rw [hp]
  refine ⟨?_, ?_, ?_, ?_⟩
  · intro ht; subst ht; rfl
  · intro ht; subst ht
    simp [ok_bind, StorageMethods.Data, StorageMethods.Zeros, bind_pure]
  · intro ht; subst ht
    simp [ok_bind, StorageMethods.Zlib, StorageMethods.Zeros, StorageMethods.Data]
  · intro ht; subst ht
    simp [ok_bind, StorageMethods.Bzip2, StorageMethods.Zeros, StorageMethods.Data,
      StorageMethods.Zlib]

/-- Witness for C5: all four dispatch cases at concrete blocks — note block 3
comes back with its first three bytes replaced by 66, 90, 104. -/
theorem claim5_witness :
    decompress_block stW5 fsW5 cW5 0 = .ok [0, 0, 0, 0] ∧
    decompress_block stW5 fsW5 cW5 1 = .ok [1, 2] ∧
    decompress_block stW5 fsW5 cW5 2 = .ok [3, 4, 3, 4] ∧
    decompress_block stW5 fsW5 cW5 3 = .ok [66, 90, 104, 7, 8] :=
  ⟨((claim5_decompress_dispatch stW5 fsW5 cW5 0 0 4 (by decide)).1 rfl).trans
      (by decide),
   ((claim5_decompress_dispatch stW5 fsW5 cW5 1 1 2 (by decide)).2.1 rfl).trans
      (by decide),
   ((claim5_decompress_dispatch stW5 fsW5 cW5 2 2 2 (by decide)).2.2.1 rfl).trans
      (by decide),
   ((claim5_decompress_dispatch stW5 fsW5 cW5 3 3 5 (by decide)).2.2.2 rfl).trans
      (by decide)⟩

/-! ## C1: the block locator's offset accumulation -/

theorem intRange_empty (a : Int) : intRange a a = [] := by
  simp [intRange]

theorem intRange_cons (a b : Int) (h : a < b) :
    intRange a b = a :: intRange (a + 1) b := by
  unfold intRange
  have h1 : (b - a).toNat = (b - (a + 1)).toNat + 1 := by omega
  rw [h1, List.range_succ_eq_map]
  rw [List.map_cons, List.map_map]
  congr 1
  · simp
  · apply List.map_congr_left
    intro k _
    simp only [Function.comp_apply, Int.ofNat_eq_coe]
    push_cast
    ring

theorem pyIndex_nonneg {α : Type} (l : List α) (i : Int) (h : 0 ≤ i) :
    pyIndex l i = l.get? i.toNat := by
  simp [pyIndex, h]

theorem nonZerosSizeSum_self (ptrs : List (Nat × Nat)) (first : Nat) :
    nonZerosSizeSum ptrs first first = 0 := by
  unfold nonZerosSizeSum
  rw [List.drop_eq_nil_of_le (by simp [List.length_take])]
  rfl

theorem nonZerosSizeSum_peel (ptrs : List (Nat × Nat)) (first bid : Nat)
    (h1 : first < bid) (h2 : first < ptrs.length) :
    nonZerosSizeSum ptrs first bid =
      (if (ptrs.getD first (0, 0)).1 ≠ StorageMethods.Zeros
       then (ptrs.getD first (0, 0)).2 else 0) +
      nonZerosSizeSum ptrs (first + 1) bid := by
  unfold nonZerosSizeSum
  have hlt : first < (ptrs.take bid).length := by simp [List.length_take]; omega
  rw [List.drop_eq_getElem_cons hlt]
  rw [List.getElem_take]
  rw [List.getD_eq_getElem _ _ h2]
  by_cases hz : ptrs[first].1 ≠ StorageMethods.Zeros
  · rw [if_pos hz]
    rw [List.filter_cons_of_pos (by simpa using hz)]
    simp
  · rw [if_neg hz]
    rw [List.filter_cons_of_neg (by simpa using hz)]
    simp

theorem accum_offset_ok (ptrs : List (Nat × Nat)) :
    ∀ (n first : Nat) (base : Int), first + n ≤ ptrs.length →
    accum_offset ptrs (first : Int) ((first + n : Nat) : Int) base =
      .ok (base + (nonZerosSizeSum ptrs first (first + n) : Int)) := by
  intro n
  induction n with
  | zero =>
      intro first base _
      unfold accum_offset
      rw [Nat.add_zero, intRange_empty]
      simp only [nonZerosSizeSum_self, Nat.cast_zero, add_zero, List.foldlM_nil]
      rfl
  | succ n ih =>
      intro first base hlen
      have hflt : first < ptrs.length := by omega
      have hcons : intRange (first : Int) ((first + (n + 1) : Nat) : Int) =
          (first : Int) :: intRange ((first : Int) + 1) ((first + (n + 1) : Nat) : Int) := by
        apply intRange_cons
        push_cast
        omega
      unfold accum_offset
      rw [hcons, List.foldlM_cons]
      have hp : pyIndex ptrs (first : Int) = some ptrs[first] := by
        rw [pyIndex_nonneg _ _ (by positivity)]
        rw [Int.toNat_natCast, List.get?_eq_getElem?, List.getElem?_eq_getElem hflt]
      simp only [hp]
      rw [pure_bind]
      have hc1 : ((first : Int) + 1) = ((first + 1 : Nat) : Int) := by push_cast; ring
      have hc2 : (first + (n + 1)) = ((first + 1) + n) := by omega
      rw [hc1, hc2]
      have := ih (first + 1)
        (if ptrs[first].1 ≠ StorageMethods.Zeros then base + (ptrs[first].2 : Int) else base)
        (by omega)
      unfold accum_offset at this
      rw [this]
      congr 1
      rw [← hc2]
      rw [nonZerosSizeSum_peel ptrs first (first + (n + 1)) (by omega) hflt]
      rw [List.getD_eq_getElem _ _ hflt, hc2]
      by_cases hz : ptrs[first].1 ≠ StorageMethods.Zeros
      · rw [if_pos hz, if_pos hz]
        push_cast
        ring
      · rw [if_neg hz, if_neg hz]
        push_cast
        ring

theorem locate_block_skip (ptrs : List (Nat × Nat)) (bid : Nat)
    (pre rest : List ISZ_sdt) (k : Nat)
    (h : ∀ s ∈ pre, ¬ (((bid : Int) ≥ s.first_chunck_number) ∧
        ((bid : Int) ≤ s.first_chunck_number + s.number_of_chunks - 1))) :
    locate_block ptrs bid (pre ++ rest) k =
      locate_block ptrs bid rest (k + pre.length) := by
  induction pre generalizing k with
  | nil => simp
  | cons s pre ih =>
      rw [List.cons_append]
      conv_lhs => rw [locate_block]
      rw [if_neg (h s (by simp))]
      rw [ih (k + 1) (fun s' hs' => h s' (by simp [hs']))]
      congr 1
      simp
      omega

theorem locate_block_found (ptrs : List (Nat × Nat)) (pre post : List ISZ_sdt)
    (seg : ISZ_sdt) (bid : Nat)
    (hpre : ∀ s ∈ pre, ¬ (((bid : Int) ≥ s.first_chunck_number) ∧
        ((bid : Int) ≤ s.first_chunck_number + s.number_of_chunks - 1)))
    (hlo : (bid : Int) ≥ seg.first_chunck_number)
    (hhi : (bid : Int) ≤ seg.first_chunck_number + seg.number_of_chunks - 1)
    (hfirst : 0 ≤ seg.first_chunck_number)
    (hlen : bid ≤ ptrs.length) :
    locate_block ptrs bid (pre ++ seg :: post) 0 =
      .ok ⟨pre.length, seg,
        seg.chunk_offset +
          (nonZerosSizeSum ptrs seg.first_chunck_number.toNat bid : Int),
        decide ((bid : Int) =
          seg.first_chunck_number + seg.number_of_chunks - 1)⟩ := by
  rw [locate_block_skip ptrs bid pre (seg :: post) 0 hpre, Nat.zero_add]
  conv_lhs => rw [locate_block]
  rw [if_pos ⟨hlo, hhi⟩]
  have hf : ((seg.first_chunck_number.toNat : Nat) : Int) = seg.first_chunck_number :=
    Int.toNat_of_nonneg hfirst
  have hfle : seg.first_chunck_number.toNat ≤ bid := Int.toNat_le.mpr hlo
  have heq : accum_offset ptrs seg.first_chunck_number (bid : Int) seg.chunk_offset =
      .ok (seg.chunk_offset +
        (nonZerosSizeSum ptrs seg.first_chunck_number.toNat bid : Int)) := by
    have h2 := accum_offset_ok ptrs (bid - seg.first_chunck_number.toNat)
      seg.first_chunck_number.toNat seg.chunk_offset (by omega)
    rw [Nat.add_sub_cancel' hfle] at h2
    rw [← hf]
    exact h2
  rw [heq]
  rfl

/-- C1: when `bid` lies in the block range of a segment (and of no earlier
segment), the scanning loop finds that segment, and the read offset it
computes is the segment's `chunk_offset` plus `nonZerosSizeSum`: the sum of
the declared sizes of exactly those blocks strictly before `bid` in the same
segment whose method tag is not `Zeros` — `Zeros` blocks contribute nothing. -/
theorem claim1_locator_offset (ptrs : List (Nat × Nat)) (pre post : List ISZ_sdt)
    (seg : ISZ_sdt) (bid : Nat)
    (hpre : ∀ s ∈ pre, ¬ (((bid : Int) ≥ s.first_chunck_number) ∧
        ((bid : Int) ≤ s.first_chunck_number + s.number_of_chunks - 1)))
    (hlo : (bid : Int) ≥ seg.first_chunck_number)
    (hhi : (bid : Int) ≤ seg.first_chunck_number + seg.number_of_chunks - 1)
    (hfirst : 0 ≤ seg.first_chunck_number)
    (hlen : bid ≤ ptrs.length) :
    locate_block ptrs bid (pre ++ seg :: post) 0 =
      .ok ⟨pre.length, seg,
        seg.chunk_offset +
          (nonZerosSizeSum ptrs seg.first_chunck_number.toNat bid : Int),
        decide ((bid : Int) =
          seg.first_chunck_number + seg.number_of_chunks - 1)⟩ :=
  locate_block_found ptrs pre post seg bid hpre hlo hhi hfirst hlen

/-- Witness for C1 at the spec's example: the offset of block 2 is
`1000 + 50` — the `Zeros(100)` block contributes nothing, and block 2 is the
segment's last block. -/
theorem claim1_witness :
    locate_block [(0, 100), (1, 50), (1, 30)] 2 [segC1] 0 =
      .ok ⟨0, segC1, 1050, true⟩ :=
  (claim1_locator_offset [(0, 100), (1, 50), (1, 30)] [] [] segC1 2
    (fun s hs => absurd hs (List.not_mem_nil s))
    (by decide) (by decide) (by decide) (by decide)).trans (by decide)

/-! ## C2: last-block reads across the segment boundary -/

theorem get_block_ok_length (st : ISZ_File) (fs : FS) (bid : Nat) (bs : Bytes)
    (h : get_block st fs bid = .ok bs) :
    ∀ q, st.chunk_pointers.get? bid = some q → bs.length = q.2 := by
  intro q hq
  unfold get_block at h
  rw [hq, pure_bind] at h
  obtain ⟨loc, hloc, h⟩ := bind_eq_ok.mp h
  obtain ⟨d1, hd1, h⟩ := bind_eq_ok.mp h
  obtain ⟨d, hd, h⟩ := bind_eq_ok.mp h
  by_cases hl : d.length = q.2
  · rw [if_pos hl] at h
    cases Except.ok.inj h
    exact hl
  · rw [if_neg hl] at h
    exact absurd h (by simp)

/-- C2: for the last block of its segment, `get_block` reads
`declared size - left_size` bytes from the segment's file at the accumulated
offset, then (exactly when `left_size ≠ 0`) reads `left_size` bytes from the
next segment's file at byte offset 64 and appends them, and fails with the
error naming the block unless the result has exactly the declared size; and
(second conjunct) every successful `get_block` returns exactly the declared
number of bytes. -/
theorem claim2_last_block_split (st : ISZ_File) (fs : FS)
    (pre post : List ISZ_sdt) (seg : ISZ_sdt) (bid t bsize : Nat)
    (hsegs : st.isz_segments = pre ++ seg :: post)
    (hp : st.chunk_pointers.get? bid = some (t, bsize))
    (hpre : ∀ s ∈ pre, ¬ (((bid : Int) ≥ s.first_chunck_number) ∧
        ((bid : Int) ≤ s.first_chunck_number + s.number_of_chunks - 1)))
    (hlo : (bid : Int) ≥ seg.first_chunck_number)
    (hlast : (bid : Int) = seg.first_chunck_number + seg.number_of_chunks - 1)
    (hfirst : 0 ≤ seg.first_chunck_number)
    (hlen : bid ≤ st.chunk_pointers.length) :
    (get_block st fs bid =
      read_data st fs pre.length
        (seg.chunk_offset +
          (nonZerosSizeSum st.chunk_pointers seg.first_chunck_number.toNat bid : Int))
        ((bsize : Int) - seg.left_size) >>= fun d1 =>
      (if seg.left_size ≠ 0 then
         (read_data st fs (pre.length + 1) 64 seg.left_size).map
           (fun d2 => d1 ++ d2)
       else pure d1) >>= fun d =>
      (if d.length = bsize then pure d
       else .error (.unableToReadBlock bid))) ∧
    (∀ (st' : ISZ_File) (fs' : FS) (bid' : Nat) (bs : Bytes),
      get_block st' fs' bid' = .ok bs →
      ∀ q, st'.chunk_pointers.get? bid' = some q → bs.length = q.2) := by
  constructor
  · unfold get_block
    rw [hp, pure_bind, hsegs]
    rw [locate_block_found st.chunk_pointers pre post seg bid hpre hlo
      (le_of_eq hlast) hfirst hlen]
    rw [ok_bind]
    have hd : decide ((bid : Int) =
        seg.first_chunck_number + seg.number_of_chunks - 1) = true :=
      decide_eq_true hlast
    simp only [hd, if_true, true_and]
  · intro st' fs' bid' bs h q hq
    exact get_block_ok_length st' fs' bid' bs h q hq

/-- Witness for C2: the 5-byte block is reconstructed as `[1, 2, 3] ++ [4, 5]`
across the segment boundary, and has exactly the declared length 5. -/
theorem claim2_witness :
    get_block stC2 fsC2 0 = .ok [1, 2, 3, 4, 5] ∧
    ([1, 2, 3, 4, 5] : Bytes).length = 5 := by
  have h1 := (claim2_last_block_split stC2 fsC2 [] [] segC2 0 1 5 rfl (by decide)
    (fun s hs => absurd hs (List.not_mem_nil s))
    (by decide) (by decide) (by decide) (by decide))
  have h2 : get_block stC2 fsC2 0 = .ok [1, 2, 3, 4, 5] := h1.1.trans (by decide)
  exact ⟨h2, h1.2 stC2 fsC2 0 [1, 2, 3, 4, 5] h2 (1, 5) (by decide)⟩

/-! ## CRC-32 lemmas -/

theorem crc32_step_lt {c : Nat} (h : c < 2 ^ 32) : crc32_step c < 2 ^ 32 := by
  unfold crc32_step
  have h2 : c / 2 < 2 ^ 32 := lt_of_le_of_lt (Nat.div_le_self c 2) h
  split
  · exact Nat.xor_lt_two_pow (by norm_num) h2
  · exact h2

theorem crc32_step_iterate_lt {c : Nat} (n : Nat) (h : c < 2 ^ 32) :
    crc32_step^[n] c < 2 ^ 32 := by
  induction n generalizing c with
  | zero => exact h
  | succ n ih =>
      rw [Function.iterate_succ_apply]
      exact ih (crc32_step_lt h)

theorem crc32_byte_lt {c : Nat} (b : Nat) (h : c < 2 ^ 32) :
    crc32_byte c b < 2 ^ 32 := by
  unfold crc32_byte
  exact crc32_step_iterate_lt 8
    (Nat.xor_lt_two_pow h (lt_trans (Nat.mod_lt _ (by norm_num)) (by norm_num)))

theorem foldl_crc32_byte_lt (data : Bytes) : ∀ {c : Nat}, c < 2 ^ 32 →
    data.foldl crc32_byte c < 2 ^ 32 := by
  induction data with
  | nil => intro c h; exact h
  | cons b data ih =>
      intro c h
      rw [List.foldl_cons]
      exact ih (crc32_byte_lt b h)

theorem crc32_lt (data : Bytes) (seed : Nat) : crc32 data seed < 2 ^ 32 := by
  unfold crc32
  apply Nat.xor_lt_two_pow
  · apply foldl_crc32_byte_lt
    exact Nat.xor_lt_two_pow (Nat.mod_lt _ (by norm_num)) (by norm_num)
  · norm_num

theorem mask32_eq_of_lt {n : Nat} (h : n < 2 ^ 32) : mask32 n = n :=
  Nat.mod_eq_of_lt h

theorem mask32_crc32 (data : Bytes) (seed : Nat) :
    mask32 (crc32 data seed) = crc32 data seed :=
  mask32_eq_of_lt (crc32_lt data seed)

/-- `zlib.crc32`'s continuation semantics: folding the concatenation equals
folding the second part seeded with the CRC of the first. -/
theorem crc32_append (a b : Bytes) (s : Nat) :
    crc32 (a ++ b) s = crc32 b (crc32 a s) := by
  unfold crc32
  rw [List.foldl_append]
  congr 1
  have hfl : List.foldl crc32_byte (mask32 s ^^^ 0xffffffff) a < 2 ^ 32 :=
    foldl_crc32_byte_lt a
      (Nat.xor_lt_two_pow (Nat.mod_lt _ (by norm_num)) (by norm_num))
  rw [mask32_eq_of_lt (Nat.xor_lt_two_pow hfl (by norm_num))]
  rw [Nat.xor_cancel_right]

/-- The source's per-block `crc = crc32(data, crc) & 0xffffffff` folding over
a list of blocks computes the CRC of their concatenation. -/
theorem crc_fold_join (blocks : List Bytes) : ∀ s, s < 2 ^ 32 →
    blocks.foldl (fun c d => mask32 (crc32 d c)) s = crc32 blocks.flatten s := by
  induction blocks with
  | nil =>
      intro s hs
      rw [List.foldl_nil, List.flatten_nil]
      unfold crc32
      rw [List.foldl_nil, mask32_eq_of_lt hs, Nat.xor_cancel_right]
  | cons d blocks ih =>
      intro s hs
      rw [List.foldl_cons, List.flatten_cons, crc32_append]
      rw [mask32_crc32]
      exact ih (crc32 d s) (crc32_lt d s)

/-! ## C3: verification of the compressed data -/

theorem verify_crc_loop_ok (st : ISZ_File) (fs : FS) :
    ∀ (ids : List Nat), (∀ i ∈ ids, i < st.chunk_pointers.length) →
    ∀ (blocks : List Bytes) (crc0 : Nat),
    (ids.filter
      (fun i => (st.chunk_pointers.getD i (0, 0)).1 != 0)).mapM
        (get_block st fs) = .ok blocks →
    verify_crc_loop st fs ids crc0 =
      .ok (blocks.foldl (fun c d => mask32 (crc32 d c)) crc0) := by
  intro ids
  induction ids with
  | nil =>
      intro _ blocks crc0 h
      simp only [List.filter_nil, List.mapM_nil] at h
      cases Except.ok.inj h
      rfl
  | cons i ids ih =>
      intro hvalid blocks crc0 h
      have hi : i < st.chunk_pointers.length := hvalid i (by simp)
      have hget : st.chunk_pointers.get? i = some st.chunk_pointers[i] := by
        rw [List.get?_eq_getElem?, List.getElem?_eq_getElem hi]
      have hgetD : st.chunk_pointers.getD i (0, 0) = st.chunk_pointers[i] :=
        List.getD_eq_getElem _ _ hi
      unfold verify_crc_loop
      rw [List.foldlM_cons]
      rw [hget, pure_bind]
      by_cases hz : st.chunk_pointers[i].1 ≠ 0
      · rw [List.filter_cons_of_pos (by rw [hgetD]; simpa using hz)] at h
        rw [List.mapM_cons] at h
        obtain ⟨d, hd, h⟩ := bind_eq_ok.mp h
        obtain ⟨tl, htl, h⟩ := bind_eq_ok.mp h
        cases Except.ok.inj h
        rw [if_pos hz, hd, ok_bind]
        have hlen : d.length = st.chunk_pointers[i].2 :=
          get_block_ok_length st fs i d hd _ hget
        rw [if_neg (by rw [hlen]; exact fun hne => hne rfl)]
        rw [pure_bind]
        have := ih (fun j hj => hvalid j (by simp [hj])) tl
          (mask32 (crc32 d crc0)) htl
        unfold verify_crc_loop at this
        rw [this]
        rfl
      · rw [List.filter_cons_of_neg (by rw [hgetD]; simpa using hz)] at h
        rw [if_neg hz]
        rw [pure_bind]
        have := ih (fun j hj => hvalid j (by simp [hj])) blocks crc0 h
        unfold verify_crc_loop at this
        rw [this]

/-- C3: when every non-`Zeros` block reads successfully (a successful
`get_block` always has the declared length, so the in-loop size check cannot
fire), `verify_isz_file` walks the blocks in order, skips `Zeros` blocks,
folds the compressed bytes into one running CRC starting from 0 with
continuation semantics (the fold equals the CRC of the concatenation), and
returns — rather than raises — the boolean comparison of the complemented
accumulator with `checksum2`. -/
theorem claim3_verify_compressed (st : ISZ_File) (fs : FS) (blocks : List Bytes)
    (h : ((List.range st.chunk_pointers.length).filter
        (fun i => (st.chunk_pointers.getD i (0, 0)).1 != 0)).mapM
          (get_block st fs) = .ok blocks) :
    verify_isz_file st fs =
      .ok (decide (not32 (crc32 blocks.flatten 0) = st.isz_header.checksum2)) := by
  unfold verify_isz_file
  rw [verify_crc_loop_ok st fs (List.range st.chunk_pointers.length)
    (fun i hi => List.mem_range.mp hi) blocks 0 h]
  rw [crc_fold_join blocks 0 (by norm_num)]
  rfl

/-- Witness for C3: with the correct `checksum2` verification returns `true`;
with `checksum2` corrupted by one bit it returns `false` instead of
raising. -/
theorem claim3_witness :
    verify_isz_file stC3good fsC3 = .ok true ∧
    verify_isz_file stC3bad fsC3 = .ok false :=
  ⟨(claim3_verify_compressed stC3good fsC3 [[0xaa, 0xbb]] (by decide)).trans
      (by decide),
   (claim3_verify_compressed stC3bad fsC3 [[0xaa, 0xbb]] (by decide)).trans
      (by decide)⟩

/-! ## C4: verification of the uncompressed data and extraction -/

theorem uncompress_crc_loop_ok (st : ISZ_File) (fs : FS) (c : Codecs) :
    ∀ (ids : List Nat) (blocks : List Bytes) (crc0 : Nat),
    ids.mapM (decompress_block st fs c) = .ok blocks →
    uncompress_crc_loop st fs c ids crc0 =
      .ok (blocks.foldl (fun cr d => mask32 (crc32 d cr)) crc0) := by
  intro ids
  induction ids with
  | nil =>
      intro blocks crc0 h
      simp only [List.mapM_nil] at h
      cases Except.ok.inj h
      rfl
  | cons i ids ih =>
      intro blocks crc0 h
      rw [List.mapM_cons] at h
      obtain ⟨d, hd, h⟩ := bind_eq_ok.mp h
      obtain ⟨tl, htl, h⟩ := bind_eq_ok.mp h
      cases Except.ok.inj h
      unfold uncompress_crc_loop
      rw [List.foldlM_cons, hd, ok_bind, pure_bind]
      have := ih tl (mask32 (crc32 d crc0)) htl
      unfold uncompress_crc_loop at this
      rw [this]
      rfl

theorem extract_loop_ok (st : ISZ_File) (fs : FS) (c : Codecs) :
    ∀ (ids : List Nat) (blocks : List Bytes) (out : Bytes) (crc0 : Nat),
    ids.mapM (decompress_block st fs c) = .ok blocks →
    extract_loop st fs c ids out crc0 =
      (out ++ blocks.flatten,
       .ok (blocks.foldl (fun cr d => mask32 (crc32 d cr)) crc0)) := by
  intro ids
  induction ids with
  | nil =>
      intro blocks out crc0 h
      simp only [List.mapM_nil] at h
      cases Except.ok.inj h
      simp [extract_loop]
  | cons i ids ih =>
      intro blocks out crc0 h
      rw [List.mapM_cons] at h
      obtain ⟨d, hd, h⟩ := bind_eq_ok.mp h
      obtain ⟨tl, htl, h⟩ := bind_eq_ok.mp h
      cases Except.ok.inj h
      unfold extract_loop
      rw [hd]
      show extract_loop st fs c ids (out ++ d) (mask32 (crc32 d crc0)) = _
      rw [ih tl (out ++ d) (mask32 (crc32 d crc0)) htl]
      rw [List.flatten_cons, List.append_assoc]
      rfl

/-- C4: when every block decompresses (including `Zeros` blocks, whose
zero-filled bytes are part of `blocks` and hence of the folded CRC),
`verify_uncompress_isz_file` returns the boolean comparison of the
complemented running CRC with `checksum1`, and `extract_to` writes exactly
the decompressed blocks concatenated in block order, raising the CRC error
after the full pass (the already-written output is the same whether or not
the final CRC matches — nothing is rolled back). -/
theorem claim4_uncompressed_and_extract (st : ISZ_File) (fs : FS) (c : Codecs)
    (blocks : List Bytes)
    (h : (List.range st.chunk_pointers.length).mapM
        (decompress_block st fs c) = .ok blocks) :
    verify_uncompress_isz_file st fs c =
      .ok (decide (not32 (crc32 blocks.flatten 0) = st.isz_header.checksum1)) ∧
    extract_to st fs c =
      (blocks.flatten,
       if not32 (crc32 blocks.flatten 0) ≠ st.isz_header.checksum1
       then .error PyErr.crcErrorDuringExtraction else .ok ()) := by
  constructor
  · unfold verify_uncompress_isz_file
    rw [uncompress_crc_loop_ok st fs c (List.range st.chunk_pointers.length)
      blocks 0 h]
    rw [crc_fold_join blocks 0 (by norm_num)]
    rfl
  · unfold extract_to
    rw [extract_loop_ok st fs c (List.range st.chunk_pointers.length) blocks [] 0 h]
    rw [List.nil_append]
    rw [crc_fold_join blocks 0 (by norm_num)]
    show (if not32 (crc32 blocks.flatten 0) ≠ st.isz_header.checksum1
      then (blocks.flatten, Except.error PyErr.crcErrorDuringExtraction)
      else (blocks.flatten, Except.ok ())) = _
    by_cases hcrc : not32 (crc32 blocks.flatten 0) ≠ st.isz_header.checksum1
    · rw [if_pos hcrc, if_pos hcrc]
    · rw [if_neg hcrc, if_neg hcrc]

set_option maxRecDepth 8192 in
/-- Witness for C4 on the container `[Zeros(3), Data(2)]`: verification folds
the zero bytes too; extraction writes `[0, 0, 0, 0xaa, 0xbb]` and, with the
wrong `checksum1`, fails with the CRC error while the written output is
unchanged. -/
theorem claim4_witness :
    verify_uncompress_isz_file stC4good fsC3 cW5 = .ok true ∧
    verify_uncompress_isz_file stC4bad fsC3 cW5 = .ok false ∧
    extract_to stC4good fsC3 cW5 = ([0, 0, 0, 0xaa, 0xbb], .ok ()) ∧
    extract_to stC4bad fsC3 cW5 =
      ([0, 0, 0, 0xaa, 0xbb], .error PyErr.crcErrorDuringExtraction) :=
  ⟨(claim4_uncompressed_and_extract stC4good fsC3 cW5 [[0, 0, 0], [0xaa, 0xbb]]
      (by decide)).1.trans (by decide),
   (claim4_uncompressed_and_extract stC4bad fsC3 cW5 [[0, 0, 0], [0xaa, 0xbb]]
      (by decide)).1.trans (by decide),
   (claim4_uncompressed_and_extract stC4good fsC3 cW5 [[0, 0, 0], [0xaa, 0xbb]]
      (by decide)).2.trans (by decide),
   (claim4_uncompressed_and_extract stC4bad fsC3 cW5 [[0, 0, 0], [0xaa, 0xbb]]
      (by decide)).2.trans (by decide)⟩

end Isz
